import Mathlib

/-!
Verification of the go-binary-updater asset-resolution engine, CDN URL
builder and resilient HTTP transport.

The Go sources are shallowly embedded: strings are Lean `String`s
manipulated through their character lists, the `strings` standard-library
functions used by the code are reimplemented below (ASCII-faithful), the
`regexp` package is modelled by a small derivative-based engine covering
the pattern dialect the repository uses (literals, escapes, `.`, `*`,
`+`, `?`, grouping, alternation, and `^`/`$` anchors at the pattern
ends; anything else fails to compile, mirroring `regexp.Compile`
returning an error), and the retrying HTTP client is modelled as a pure
state-transition function over an explicit circuit-breaker state with
time passed in as a natural-number parameter (seconds).
-/

/-- Embeds Go `strings.ToLower` (ASCII case mapping). -/
def goToLower (s : String) : String := ⟨s.data.map Char.toLower⟩

/-- Embeds Go `strings.TrimSpace`: strip leading and trailing whitespace. -/
def goTrimSpace (s : String) : String :=
  ⟨((s.data.dropWhile Char.isWhitespace).reverse.dropWhile Char.isWhitespace).reverse⟩

/-- Substring occurrence test on character lists. -/
def containsSub (pat : List Char) : List Char → Bool
  | [] => pat.isPrefixOf []
  | c :: rest => pat.isPrefixOf (c :: rest) || containsSub pat rest

/-- Embeds Go `strings.Contains` (substring test). -/
def goContains (s sub : String) : Bool := containsSub sub.data s.data

/-- Embeds Go `strings.HasPrefix`. -/
def goStartsWith (s p : String) : Bool := p.data.isPrefixOf s.data

/-- Embeds Go `strings.HasSuffix`. -/
def goHasSuffix (s p : String) : Bool := p.data.isSuffixOf s.data

/-- Embeds Go `strings.TrimPrefix`: drop the leading occurrence of `p`
if present, otherwise return `s` unchanged. -/
def goTrimLeading (s p : String) : String :=
  if goStartsWith s p then ⟨s.data.drop p.data.length⟩ else s

/-- Embeds Go `strings.EqualFold` (ASCII case folding). -/
def goEqualFold (a b : String) : Bool :=
  a.data.map Char.toLower == b.data.map Char.toLower

/-- Worker for `goReplaceAll` (the pattern `old` is non-empty here).
The first `Nat` is recursion fuel, instantiated with the list length,
which suffices because every step consumes at least one character. -/
def replaceAllAux (old new : List Char) : Nat → List Char → List Char
  | 0, s => s
  | _ + 1, [] => []
  | fuel + 1, c :: rest =>
    if old.isPrefixOf (c :: rest) then
      new ++ replaceAllAux old new fuel (rest.drop (old.length - 1))
    else
      c :: replaceAllAux old new fuel rest

/-- Embeds Go `strings.ReplaceAll`.  An empty `old` inserts `new` before
every character and at the end, matching Go's semantics. -/
def goReplaceAll (s old new : String) : String :=
  if old.data = [] then
    ⟨new.data ++ s.data.flatMap (fun c => c :: new.data)⟩
  else
    ⟨replaceAllAux old.data new.data s.data.length s.data⟩

/-- Embeds Go `strings.isSeparator` restricted to ASCII input: word
separators for `strings.Title` are the characters that are not
letters, digits or underscore. -/
def goIsSeparator (c : Char) : Bool :=
  !(c.isDigit || c.isLower || c.isUpper || c = '_')

/-- Worker for `goTitle`; the first argument is the previous character. -/
def goTitleAux : Char → List Char → List Char
  | _, [] => []
  | prev, c :: rest =>
    (if goIsSeparator prev then c.toUpper else c) :: goTitleAux c rest

/-- Embeds Go `strings.Title`: upper-case each letter that begins a word. -/
def goTitle (s : String) : String := ⟨goTitleAux ' ' s.data⟩

/-!
A small regular-expression engine modelling the subset of Go `regexp`
used by the repository's patterns.  Matching is by Brzozowski
derivatives; `regexp.MatchString` performs an unanchored search, with
`^` and `$` (only recognised at the ends of a pattern) anchoring it.
A pattern outside the supported dialect fails to compile, which models
`regexp.Compile`/`regexp.MatchString` returning a non-nil error.
-/

/-- Regular expressions (no anchors; anchors live in `RePattern`). -/
inductive RE where
  | emp : RE
  | eps : RE
  | ch (c : Char) : RE
  | anyc : RE
  | alt (r1 r2 : RE) : RE
  | cat (r1 r2 : RE) : RE
  | star (r : RE) : RE
deriving DecidableEq

/-- Does the expression accept the empty string? -/
def RE.nullable : RE → Bool
  | .emp => false
  | .eps => true
  | .ch _ => false
  | .anyc => false
  | .alt a b => a.nullable || b.nullable
  | .cat a b => a.nullable && b.nullable
  | .star _ => true

/-- Brzozowski derivative with respect to one character. -/
def RE.deriv : RE → Char → RE
  | .emp, _ => .emp
  | .eps, _ => .emp
  | .ch c, x => if x = c then .eps else .emp
  | .anyc, _ => .eps
  | .alt a b, x => .alt (a.deriv x) (b.deriv x)
  | .cat a b, x =>
    if a.nullable then .alt (.cat (a.deriv x) b) (b.deriv x)
    else .cat (a.deriv x) b
  | .star r, x => .cat (r.deriv x) (.star r)

/-- Does the whole character list match the expression? -/
def RE.fullMatch (r : RE) (s : List Char) : Bool :=
  (s.foldl RE.deriv r).nullable

/-- Does some prefix of the character list match the expression? -/
def RE.prefixMatch : RE → List Char → Bool
  | r, [] => r.nullable
  | r, c :: rest => r.nullable || (r.deriv c).prefixMatch rest

/-- Does some suffix of the character list fully match the expression? -/
def RE.suffixFull : RE → List Char → Bool
  | r, [] => r.nullable
  | r, s@(_ :: rest) => r.fullMatch s || r.suffixFull rest

/-- Does some contiguous substring match the expression? -/
def RE.searchIn : RE → List Char → Bool
  | r, [] => r.nullable
  | r, s@(_ :: rest) => r.prefixMatch s || r.searchIn rest

/-- A compiled pattern: an expression plus the two end anchors. -/
structure RePattern where
  anchorStart : Bool
  anchorEnd : Bool
  re : RE
deriving DecidableEq

/-- Semantics of `regexp.MatchString` for a compiled pattern. -/
def RePattern.matches (p : RePattern) (s : List Char) : Bool :=
  match p.anchorStart, p.anchorEnd with
  | true, true => p.re.fullMatch s
  | true, false => p.re.prefixMatch s
  | false, true => p.re.suffixFull s
  | false, false => p.re.searchIn s

/-- Tokens of the pattern syntax. -/
inductive RTok where
  | lpar | rpar | bar | star | plus | quest | caret | dollar | dot
  | lit (c : Char)
deriving DecidableEq

/-- Tokenize a pattern; a trailing backslash is a syntax error. -/
def tokenizeRE : List Char → Option (List RTok)
  | [] => some []
  | '\\' :: [] => none
  | '\\' :: c :: rest => (tokenizeRE rest).map (RTok.lit c :: ·)
  | c :: rest =>
    let tok :=
      if c = '(' then RTok.lpar
      else if c = ')' then RTok.rpar
      else if c = '|' then RTok.bar
      else if c = '*' then RTok.star
      else if c = '+' then RTok.plus
      else if c = '?' then RTok.quest
      else if c = '^' then RTok.caret
      else if c = '$' then RTok.dollar
      else if c = '.' then RTok.dot
      else RTok.lit c
    (tokenizeRE rest).map (tok :: ·)

mutual

/-- Parse an alternation (`a|b|c`). -/
def parseAlt : Nat → List RTok → Option (RE × List RTok)
  | 0, _ => none
  | fuel + 1, ts => do
    let (r, ts1) ← parseSeq fuel ts
    match ts1 with
    | RTok.bar :: ts2 => do
      let (r2, ts3) ← parseAlt fuel ts2
      pure (RE.alt r r2, ts3)
    | _ => pure (r, ts1)

/-- Parse a concatenation of pieces; empty concatenations are allowed. -/
def parseSeq : Nat → List RTok → Option (RE × List RTok)
  | 0, _ => none
  | fuel + 1, ts =>
    match parsePiece fuel ts with
    | none => pure (RE.eps, ts)
    | some (r, ts1) => do
      let (r2, ts2) ← parseSeq fuel ts1
      pure (RE.cat r r2, ts2)

/-- Parse an atom with an optional postfix repetition operator. -/
def parsePiece : Nat → List RTok → Option (RE × List RTok)
  | 0, _ => none
  | fuel + 1, ts => do
    let (r, ts1) ← parseAtom fuel ts
    match ts1 with
    | RTok.star :: ts2 => pure (RE.star r, ts2)
    | RTok.plus :: ts2 => pure (RE.cat r (RE.star r), ts2)
    | RTok.quest :: ts2 => pure (RE.alt RE.eps r, ts2)
    | _ => pure (r, ts1)

/-- Parse an atom: a literal, `.`, or a parenthesised group. -/
def parseAtom : Nat → List RTok → Option (RE × List RTok)
  | 0, _ => none
  | fuel + 1, ts =>
    match ts with
    | RTok.lit c :: ts1 => pure (RE.ch c, ts1)
    | RTok.dot :: ts1 => pure (RE.anyc, ts1)
    | RTok.lpar :: ts1 => do
      let (r, ts2) ← parseAlt fuel ts1
      match ts2 with
      | RTok.rpar :: ts3 => pure (r, ts3)
      | _ => none
    | _ => none

end

/-- Compile a pattern string, mirroring `regexp.Compile`: `none` models a
compile error.  `^` is recognised only as the first token and `$` only
as the last token; anchors elsewhere are outside the supported dialect
and are rejected. -/
def compilePattern (pat : String) : Option RePattern := do
  let toks ← tokenizeRE pat.data
  let (anchorStart, toks) :=
    match toks with
    | RTok.caret :: rest => (true, rest)
    | _ => (false, toks)
  let (anchorEnd, toks) :=
    match toks.getLast? with
    | some RTok.dollar => (true, toks.dropLast)
    | _ => (false, toks)
  if toks.any (fun t => t = RTok.caret || t = RTok.dollar) then none
  else
    let (r, rest) ← parseAlt (2 * toks.length + 2) toks
    if rest = [] then pure ⟨anchorStart, anchorEnd, r⟩ else none

/-- Embeds Go `regexp.MatchString`: `none` models a non-nil error. -/
def goMatchString (pat s : String) : Option Bool :=
  (compilePattern pat).map (fun p => p.matches s.data)

/-- The `matched, _ := regexp.MatchString(...)` idiom used throughout the
matcher: a compile error is discarded and counts as "not matched". -/
def goMatchIgnoreErr (pat s : String) : Bool :=
  (goMatchString pat s).getD false

/-!
Platform identity (`pkg/release/arch.go`, latest snapshot).
-/

/-- Embeds `MapArch`: normalize a raw architecture identifier
(lower-cased, trimmed) to the canonical release naming; unrecognized
input passes through unchanged (the original, un-normalized string). -/
def MapArch (arch : String) : String :=
  match goToLower (goTrimSpace arch) with
  | "amd64" | "x86_64" | "x64" => "x86_64"
  | "arm64" | "aarch64" => "arm64"
  | "arm" | "armv6" | "armv7" | "armhf" => "arm"
  | "386" | "i386" | "i686" | "x86" => "i386"
  | "mips" => "mips"
  | "mipsle" => "mipsle"
  | "mips64" => "mips64"
  | "mips64le" => "mips64le"
  | "ppc64" => "ppc64"
  | "ppc64le" => "ppc64le"
  | "s390x" => "s390x"
  | "riscv64" => "riscv64"
  | "wasm" => "wasm"
  | _ => arch

/-!
Asset resolution engine (`pkg/release/asset_matcher.go`).  Go maps are
embedded as association lists (the configurations built here have
distinct keys, so lookup agrees with Go map indexing), and the pair of
`runtime.GOOS`/`runtime.GOARCH` fields of `AssetMatcher` are explicit
`os`/`arch` fields.  Error returns (`fmt.Errorf`) are embedded as a
structured error type with one constructor per distinct error message.
-/

/-- Embeds the `AssetMatchingStrategy` constants. -/
inductive AssetMatchingStrategy where
  | standardStrategy
  | flexibleStrategy
  | customStrategy
  | cdnStrategy
  | hybridStrategy
deriving DecidableEq

/-- Embeds `ExtractionConfig` (consumed by the external extractor only). -/
structure ExtractionConfig where
  stripComponents : Nat
  binaryPath : String
deriving DecidableEq

/-- Embeds `AssetMatchingConfig`. -/
structure AssetMatchingConfig where
  strategy : AssetMatchingStrategy
  customPatterns : List String
  isDirectBinary : Bool
  projectName : String
  architectureAliases : List (String × List String)
  osAliases : List (String × List String)
  fileExtensions : List String
  excludePatterns : List String
  priorityPatterns : List String
  cdnBaseURL : String
  cdnPattern : String
  cdnVersionFormat : String
  cdnArchMapping : List (String × String)
  extractionConfig : Option ExtractionConfig
deriving DecidableEq

/-- Embeds the errors produced by `FindBestMatch` and its helpers, one
constructor per distinct `fmt.Errorf` message. -/
inductive MatchError where
  | noAssetsProvided
  | allAssetsExcluded (originalAssets : List String) (excludedPatterns : List String)
  | noStandardMatch (searchKey : String)
  | noFlexibleMatch (os arch : String)
  | noCustomPatternsDefined
  | noCustomMatch
  | cdnConfigMissing
deriving DecidableEq

/-- Embeds `AssetMatcher` (`os`/`arch` are `runtime.GOOS`/`runtime.GOARCH`). -/
structure AssetMatcher where
  config : AssetMatchingConfig
  os : String
  arch : String
deriving DecidableEq

/-- Embeds `DefaultAssetMatchingConfig`. -/
def DefaultAssetMatchingConfig : AssetMatchingConfig where
  strategy := .flexibleStrategy
  customPatterns := []
  isDirectBinary := false
  projectName := ""
  architectureAliases :=
    [("amd64", ["amd64", "x86_64", "x64"]),
     ("arm64", ["arm64", "aarch64"]),
     ("arm", ["arm", "armv6", "armv7", "armhf"]),
     ("386", ["386", "i386", "i686", "x86"]),
     ("mips", ["mips"]),
     ("mips64", ["mips64"]),
     ("ppc64", ["ppc64"]),
     ("ppc64le", ["ppc64le"]),
     ("s390x", ["s390x"]),
     ("riscv64", ["riscv64"])]
  osAliases :=
    [("linux", ["linux", "Linux"]),
     ("darwin", ["darwin", "Darwin", "macos", "macOS", "osx", "OSX"]),
     ("windows", ["windows", "Windows", "win", "Win"]),
     ("freebsd", ["freebsd", "FreeBSD"]),
     ("openbsd", ["openbsd", "OpenBSD"]),
     ("netbsd", ["netbsd", "NetBSD"])]
  fileExtensions := [".tar.gz", ".zip", ".tgz", ".tar.bz2"]
  excludePatterns :=
    ["airgap", "\\.asc$", "\\.sig$", "\\.sha256$", "\\.sha512$", "\\.md5$"]
  priorityPatterns := []
  cdnBaseURL := ""
  cdnPattern := ""
  cdnVersionFormat := ""
  cdnArchMapping := []
  extractionConfig := none

/-- Embeds `getOSAliases`. -/
def AssetMatcher.getOSAliases (am : AssetMatcher) (os : String) : List String :=
  match am.config.osAliases.lookup os with
  | some aliases => aliases
  | none => [os]

/-- Embeds `getArchAliases`: the configured aliases are keyed by the
`MapArch` image of the raw architecture; a missing entry falls back to
the raw and mapped names. -/
def AssetMatcher.getArchAliases (am : AssetMatcher) (arch : String) : List String :=
  let mappedArch := MapArch arch
  match am.config.architectureAliases.lookup mappedArch with
  | some aliases => aliases
  | none => [arch, mappedArch]

/-- The hard-coded OS indicator list of `containsWrongPlatform` and
`containsWrongOS`. -/
def allOSIndicators : List String :=
  ["linux", "darwin", "windows", "freebsd", "openbsd", "netbsd", "macos", "osx", "win"]

/-- The hard-coded architecture indicator list of `containsWrongPlatform`. -/
def allArchIndicators : List String :=
  ["amd64", "x86_64", "arm64", "aarch64", "arm", "386", "i386", "mips", "ppc64"]

/-- Embeds `containsWrongOS`: the (already lower-cased) name contains an
OS indicator that is not one of our OS aliases. -/
def containsWrongOS (assetName : String) (osAliases : List String) : Bool :=
  allOSIndicators.any fun wrongOS =>
    goContains assetName wrongOS &&
      !(osAliases.any fun ourOS => goEqualFold wrongOS ourOS)

/-- Embeds `containsWrongPlatform`: a wrong-OS or wrong-architecture
indicator occurs in the (already lower-cased) name. -/
def containsWrongPlatform (assetName : String) (osAliases archAliases : List String) : Bool :=
  (allOSIndicators.any fun wrongOS =>
    goContains assetName wrongOS &&
      !(osAliases.any fun ourOS => goEqualFold wrongOS ourOS)) ||
  (allArchIndicators.any fun wrongArch =>
    goContains assetName wrongArch &&
      !(archAliases.any fun ourArch => goEqualFold wrongArch ourArch))

/-- Embeds `matchesCommonPatterns` (the name is already lower-cased). -/
def AssetMatcher.matchesCommonPatterns (am : AssetMatcher) (assetName : String)
    (osAliases archAliases : List String) : Bool :=
  (am.config.projectName ≠ "" &&
    archAliases.any fun archAlias =>
      goMatchIgnoreErr
        (goToLower am.config.projectName ++ "-.*-" ++ goToLower archAlias) assetName) ||
  (osAliases.any fun osAlias =>
    archAliases.any fun archAlias =>
      goMatchIgnoreErr (goToLower osAlias ++ ".*" ++ goToLower archAlias) assetName ||
      goMatchIgnoreErr (goToLower archAlias ++ ".*" ++ goToLower osAlias) assetName)

/-- Embeds `scoreAsset`: the additive score of one asset name against the
current platform's alias sets. -/
def AssetMatcher.scoreAsset (am : AssetMatcher) (assetName : String)
    (osAliases archAliases : List String) : Int :=
  let lowerName := goToLower assetName
  let osMatched := osAliases.any fun a => goContains lowerName (goToLower a)
  let archMatched := archAliases.any fun a => goContains lowerName (goToLower a)
  (if osMatched then 10 else 0) +
  (if archMatched then 10 else 0) +
  (if osMatched && archMatched then 5 else 0) +
  (if !osMatched && archMatched && !containsWrongOS lowerName osAliases then 8 else 0) +
  (if am.matchesCommonPatterns lowerName osAliases archAliases then 3 else 0) +
  (if am.config.priorityPatterns.any fun p => goMatchIgnoreErr (goToLower p) lowerName
   then 15 else 0) -
  (if containsWrongPlatform lowerName osAliases archAliases then 20 else 0) +
  (if !am.config.isDirectBinary &&
      (am.config.fileExtensions.any fun ext => goHasSuffix lowerName ext)
   then 2 else 0)

/-- Embeds `filterExcludedAssets`: drop every asset whose lower-cased
name matches some (lower-cased) exclusion pattern; a pattern that fails
to compile matches nothing. -/
def AssetMatcher.filterExcludedAssets (am : AssetMatcher) (assetNames : List String) :
    List String :=
  if am.config.excludePatterns = [] then assetNames
  else
    assetNames.filter fun assetName =>
      let lowerName := goToLower assetName
      !(am.config.excludePatterns.any fun excludePattern =>
        goMatchIgnoreErr (goToLower excludePattern) lowerName)

/-- Embeds `findStandardMatch`: first asset containing the
`Title(OS)_canonicalArch` key. -/
def AssetMatcher.findStandardMatch (am : AssetMatcher) (assetNames : List String) :
    Except MatchError String :=
  let mappedArch := MapArch am.arch
  let osTitle := goTitle (goToLower am.os)
  let searchKey := osTitle ++ "_" ++ mappedArch
  match assetNames.find? (fun name => goContains name searchKey) with
  | some name => .ok name
  | none => .error (.noStandardMatch searchKey)

/-- One step of the scoring loop of `findFlexibleMatch`: the current
best is replaced only on a strictly greater score. -/
def flexStep (score : String → Int) (acc : Int × String) (assetName : String) :
    Int × String :=
  if score assetName > acc.1 then (score assetName, assetName) else acc

/-- The scoring loop of `findFlexibleMatch`, starting from best score 0
and an empty best match. -/
def flexFold (score : String → Int) (assetNames : List String) : Int × String :=
  assetNames.foldl (flexStep score) (0, "")

/-- The score `findFlexibleMatch` gives one candidate: `scoreAsset`
against the current platform's OS and architecture alias sets. -/
def AssetMatcher.flexScore (am : AssetMatcher) (assetName : String) : Int :=
  am.scoreAsset assetName (am.getOSAliases am.os) (am.getArchAliases am.arch)

/-- Embeds `findFlexibleMatch`: score every candidate, keep the best;
a final best score of zero is the no-suitable-asset failure. -/
def AssetMatcher.findFlexibleMatch (am : AssetMatcher) (assetNames : List String) :
    Except MatchError String :=
  let best := flexFold am.flexScore assetNames
  if best.1 = 0 then .error (.noFlexibleMatch am.os am.arch) else .ok best.2

/-- Embeds `expandPattern`: replace the `\x7bOS\x7d`, `\x7bARCH\x7d` and
`\x7bPROJECT\x7d` placeholders by alias alternations and project name. -/
def AssetMatcher.expandPattern (am : AssetMatcher) (pattern : String)
    (osAliases archAliases : List String) : String :=
  let osPattern := String.intercalate "|" osAliases
  let pattern := goReplaceAll pattern "{OS}" ("(" ++ osPattern ++ ")")
  let archPattern := String.intercalate "|" archAliases
  let pattern := goReplaceAll pattern "{ARCH}" ("(" ++ archPattern ++ ")")
  if am.config.projectName ≠ "" then
    goReplaceAll pattern "{PROJECT}" am.config.projectName
  else pattern

/-- The pattern loop of `findCustomMatch`: skip patterns that fail to
compile, otherwise return the first asset matched, in declaration
order. -/
def AssetMatcher.customLoop (am : AssetMatcher) (assetNames : List String)
    (osAliases archAliases : List String) : List String → Option String
  | [] => none
  | pattern :: rest =>
    let expandedPattern := am.expandPattern pattern osAliases archAliases
    match compilePattern expandedPattern with
    | none => am.customLoop assetNames osAliases archAliases rest
    | some regex =>
      match assetNames.find? (fun assetName => regex.matches assetName.data) with
      | some assetName => some assetName
      | none => am.customLoop assetNames osAliases archAliases rest

/-- Embeds `findCustomMatch`. -/
def AssetMatcher.findCustomMatch (am : AssetMatcher) (assetNames : List String) :
    Except MatchError String :=
  if am.config.customPatterns = [] then .error .noCustomPatternsDefined
  else
    let osAliases := am.getOSAliases am.os
    let archAliases := am.getArchAliases am.arch
    match am.customLoop assetNames osAliases archAliases am.config.customPatterns with
    | some assetName => .ok assetName
    | none => .error .noCustomMatch

/-- Embeds `findCDNMatch`: build the CDN URL from the first OS and
architecture aliases, leaving the version placeholder for the caller.
Go indexes `aliases[0]`, which panics on an empty alias list; that
undefined case is modelled by the empty string, and the theorems below
assume non-empty alias lists. -/
def AssetMatcher.findCDNMatch (am : AssetMatcher) : Except MatchError String :=
  if am.config.cdnBaseURL = "" || am.config.cdnPattern = "" then
    .error .cdnConfigMissing
  else
    let osAliases := am.getOSAliases am.os
    let archAliases := am.getArchAliases am.arch
    let osName := osAliases.headD ""
    let archName := archAliases.headD ""
    let cdnURL := am.config.cdnBaseURL ++ am.config.cdnPattern
    let cdnURL := goReplaceAll cdnURL "{os}" osName
    let cdnURL := goReplaceAll cdnURL "{arch}" archName
    .ok cdnURL

/-- Embeds `findHybridMatch`: flexible matching first, CDN on failure. -/
def AssetMatcher.findHybridMatch (am : AssetMatcher) (assetNames : List String) :
    Except MatchError String :=
  if assetNames.length > 0 then
    match am.findFlexibleMatch assetNames with
    | .ok result => .ok result
    | .error _ => am.findCDNMatch
  else am.findCDNMatch

/-- Embeds `FindBestMatch`: guard for an empty input, apply exclusion
filtering, then dispatch on the strategy.  (Go's `switch` default also
dispatches to flexible matching for out-of-range strategy values; the
strategy type is closed here, so no default arm is needed.) -/
def AssetMatcher.FindBestMatch (am : AssetMatcher) (assetNames : List String) :
    Except MatchError String :=
  if assetNames = [] then .error .noAssetsProvided
  else
    let filteredAssets := am.filterExcludedAssets assetNames
    if filteredAssets = [] then
      .error (.allAssetsExcluded assetNames am.config.excludePatterns)
    else
      match am.config.strategy with
      | .standardStrategy => am.findStandardMatch filteredAssets
      | .flexibleStrategy => am.findFlexibleMatch filteredAssets
      | .customStrategy => am.findCustomMatch filteredAssets
      | .cdnStrategy => am.findCDNMatch
      | .hybridStrategy => am.findHybridMatch filteredAssets

/-!
CDN URL builder (`cdn_downloader.go`, latest snapshot =
`src/unnamed/part_005`).  Only the pure URL-construction logic is
embedded; the download itself performs I/O and is out of scope.
-/

/-- Embeds the configuration part of `CDNDownloader` (the HTTP client
field is I/O machinery and carries no resolution logic).  A Go `nil`
arch-mapping map is the empty association list. -/
structure CDNDownloader where
  BaseURL : String
  Pattern : String
  ArchMapping : List (String × String)
deriving DecidableEq

/-- Embeds `FormatVersionForCDN`: `with-v` ensures one leading `v`,
`without-v` strips a leading `v`, `as-is` falls through to the default
arm that returns the version unchanged. -/
def FormatVersionForCDN (version format : String) : String :=
  match format with
  | "with-v" => if !goStartsWith version "v" then "v" ++ version else version
  | "without-v" => goTrimLeading version "v"
  | _ => version

/-- Embeds `mapArchForCDN`: a configured per-CDN mapping entry for the
lower-cased, trimmed architecture takes priority; otherwise fall back
to `MapArch`. -/
def CDNDownloader.mapArchForCDN (c : CDNDownloader) (arch : String) : String :=
  let normalizedArch := goToLower (goTrimSpace arch)
  match c.ArchMapping.lookup normalizedArch with
  | some mappedArch => mappedArch
  | none => MapArch arch

/-- Embeds `ConstructURLWithVersionFormat`. -/
def CDNDownloader.ConstructURLWithVersionFormat (c : CDNDownloader)
    (version os arch versionFormat : String) : String :=
  let url := c.BaseURL ++ c.Pattern
  let versionToUse := FormatVersionForCDN version versionFormat
  let archToUse := c.mapArchForCDN arch
  let url := goReplaceAll url "{version}" versionToUse
  let url := goReplaceAll url "{os}" os
  goReplaceAll url "{arch}" archToUse

/-- Embeds `ConstructURL` (the `as-is` version format). -/
def CDNDownloader.ConstructURL (c : CDNDownloader) (version os arch : String) : String :=
  c.ConstructURLWithVersionFormat version os arch "as-is"

/-!
Resilient transport (`RetryableHTTPClient`, latest snapshot of
`http_client.go`).  The embedding is a pure state-transition function:
time is an explicit natural-number parameter (seconds, standing for
`time.Now()`), the backend is a function from attempt index to that
attempt's outcome (standing for `c.client.Do`), and sleeping
(`handleRateLimit`, `waitBeforeRetry`) only delays execution, so the
delay/backoff configuration fields are irrelevant to results and
circuit state and are not modelled.  Results carry the number of
network requests actually issued.
-/

/-- The outcome of one network attempt: a response status code, or a
transport-level error with its message. -/
inductive AttemptOutcome where
  | resp (status : Nat)
  | netErr (msg : String)
deriving DecidableEq

/-- The retry-relevant configuration of `RetryableHTTPClient`. -/
structure HTTPClientConfig where
  maxRetries : Nat
  circuitBreaker : Bool
deriving DecidableEq

/-- The mutable circuit-breaker state of a `RetryableHTTPClient`. -/
structure CircuitState where
  failureCount : Nat
  lastFailure : Nat
  circuitOpen : Bool
deriving DecidableEq

/-- The circuit state of a freshly constructed client
(`NewRetryableHTTPClient`). -/
def newCircuitState : CircuitState := ⟨0, 0, false⟩

/-- The fixed circuit-breaker reopen timeout (`circuitTimeout`, 60s). -/
def circuitTimeout : Nat := 60

/-- Embeds the errors returned by `Do`, one constructor per
`fmt.Errorf`; each retry-exhaustion error carries the attempt count it
reports. -/
inductive DoError where
  | circuitOpenErr
  | rateLimited (attempts : Nat)
  | serverError (status : Nat) (attempts : Nat)
  | requestFailed (attempts : Nat) (lastErr : Option String)
deriving DecidableEq

/-- Embeds `shouldRetry`: the retryable status set. -/
def shouldRetry (statusCode : Nat) : Bool :=
  statusCode = 429 || statusCode = 500 || statusCode = 502 ||
  statusCode = 503 || statusCode = 504

/-- Embeds `recordFailure` at time `now`: bump the consecutive-failure
counter, remember the failure time, and open the circuit at 5 failures
when the breaker is enabled. -/
def recordFailure (cfg : HTTPClientConfig) (st : CircuitState) (now : Nat) : CircuitState :=
  let failureCount := st.failureCount + 1
  { failureCount := failureCount
    lastFailure := now
    circuitOpen :=
      if cfg.circuitBreaker && failureCount ≥ 5 then true else st.circuitOpen }

/-- Embeds `resetCircuitBreaker`. -/
def resetCircuitBreaker (st : CircuitState) : CircuitState :=
  { st with failureCount := 0, circuitOpen := false }

/-- Embeds `isCircuitOpen` at time `now`: reports whether the circuit is
open, auto-closing it (with a zeroed counter) once more than the
timeout has elapsed since the last failure. -/
def isCircuitOpen (st : CircuitState) (now : Nat) : Bool × CircuitState :=
  if !st.circuitOpen then (false, st)
  else if now - st.lastFailure > circuitTimeout then
    (false, { st with circuitOpen := false, failureCount := 0 })
  else (true, st)

/-- The retry loop of `Do`.  `fuel` is the number of attempts still
allowed (`maxRetries + 1 - attempt`); the triple returned is the call
result, the final circuit state, and the number of attempts issued. -/
def doLoop (cfg : HTTPClientConfig) (backend : Nat → AttemptOutcome) (now : Nat) :
    Nat → Nat → CircuitState → Option String →
    (Except DoError Nat × CircuitState × Nat)
  | 0, _, st, lastErr =>
    (.error (.requestFailed (cfg.maxRetries + 1) lastErr), st, 0)
  | fuel + 1, attempt, st, lastErr =>
    match backend attempt with
    | .resp status =>
      if status = 429 then
        let st := recordFailure cfg st now
        if attempt < cfg.maxRetries then
          let (r, st', n) := doLoop cfg backend now fuel (attempt + 1) st lastErr
          (r, st', n + 1)
        else (.error (.rateLimited (cfg.maxRetries + 1)), st, 1)
      else if shouldRetry status then
        let st := recordFailure cfg st now
        if attempt < cfg.maxRetries then
          let (r, st', n) := doLoop cfg backend now fuel (attempt + 1) st lastErr
          (r, st', n + 1)
        else (.error (.serverError status (cfg.maxRetries + 1)), st, 1)
      else (.ok status, resetCircuitBreaker st, 1)
    | .netErr msg =>
      let st := recordFailure cfg st now
      let (r, st', n) := doLoop cfg backend now fuel (attempt + 1) st (some msg)
      (r, st', n + 1)

/-- Embeds `Do`: the circuit-breaker gate (which can short-circuit the
call before any attempt) followed by the retry loop over
`maxRetries + 1` attempts. -/
def transportDo (cfg : HTTPClientConfig) (st : CircuitState) (now : Nat)
    (backend : Nat → AttemptOutcome) : Except DoError Nat × CircuitState × Nat :=
  if cfg.circuitBreaker then
    let (isOpen, st1) := isCircuitOpen st now
    if isOpen then (.error .circuitOpenErr, st1, 0)
    else doLoop cfg backend now (cfg.maxRetries + 1) 0 st1 none
  else doLoop cfg backend now (cfg.maxRetries + 1) 0 st none

/-!
Supporting lemmas.
-/

/-- Appending one character on the left, at the level of `String.data`. -/
theorem data_vcons (v : String) : ("v" ++ v).data = 'v' :: v.data := by
  rw [String.data_append]
  rfl

/-- Dropping the `v` just prefixed recovers the original string. -/
theorem goTrimLeading_vcons (v : String) : goTrimLeading ("v" ++ v) "v" = v := by
  unfold goTrimLeading goStartsWith
  rw [data_vcons]
  simp [List.isPrefixOf]

/-!
Claim theorems.
-/

/-- C7: CDN version formatting round-trips.  For every version not
starting with `v`, `with-v` prefixes exactly one leading `v` and
stripping that leading `v` recovers the original; `without-v` strips a
leading `v` (in particular turning `v3.1.0` into `3.1.0`); `as-is` and
any unrecognized format value leave the version unchanged. -/
theorem C7_cdn_version_format_roundtrip :
    (∀ v : String, goStartsWith v "v" = false →
      FormatVersionForCDN v "with-v" = "v" ++ v ∧
      goTrimLeading (FormatVersionForCDN v "with-v") "v" = v) ∧
    (∀ v : String, FormatVersionForCDN ("v" ++ v) "without-v" = v) ∧
    FormatVersionForCDN "v3.1.0" "without-v" = "3.1.0" ∧
    (∀ v fmt : String, fmt ≠ "with-v" → fmt ≠ "without-v" →
      FormatVersionForCDN v fmt = v) ∧
    (∀ v : String, FormatVersionForCDN v "as-is" = v) := by
  refine ⟨?_, ?_, by decide, ?_, ?_⟩
  · intro v h
    have h1 : FormatVersionForCDN v "with-v" = "v" ++ v := by
      show (if !goStartsWith v "v" then "v" ++ v else v) = "v" ++ v
      rw [h]
      rfl
    exact ⟨h1, by rw [h1]; exact goTrimLeading_vcons v⟩
  · intro v
    show goTrimLeading ("v" ++ v) "v" = v
    exact goTrimLeading_vcons v
  · intro v fmt h1 h2
    unfold FormatVersionForCDN
    split
    · exact absurd rfl h1
    · exact absurd rfl h2
    · rfl
  · intro v
    rfl

/-- C8: in CDN URL construction a per-provider architecture override for
the (lower-cased, trimmed) input architecture takes priority over the
generic `MapArch` mapping; without an applicable override the result
falls back to `MapArch`.  With an override mapping `amd64` to `amd64`,
the constructed URL substitutes `amd64` and never `x86_64`, although
`MapArch "amd64" = "x86_64"`. -/
theorem C8_cdn_arch_override_priority :
    (∀ (c : CDNDownloader) (arch m : String),
      c.ArchMapping.lookup (goToLower (goTrimSpace arch)) = some m →
      c.mapArchForCDN arch = m) ∧
    (∀ (c : CDNDownloader) (arch : String),
      c.ArchMapping.lookup (goToLower (goTrimSpace arch)) = none →
      c.mapArchForCDN arch = MapArch arch) ∧
    MapArch "amd64" = "x86_64" ∧
    (let d : CDNDownloader :=
      ⟨"https://example.com/", "tool-{version}-{os}-{arch}.tar.gz",
        [("amd64", "amd64"), ("x86_64", "amd64"), ("x64", "amd64")]⟩
     d.ConstructURLWithVersionFormat "1.0.0" "linux" "amd64" "as-is"
        = "https://example.com/tool-1.0.0-linux-amd64.tar.gz" ∧
     goContains (d.ConstructURLWithVersionFormat "1.0.0" "linux" "amd64" "as-is")
        "amd64" = true ∧
     goContains (d.ConstructURLWithVersionFormat "1.0.0" "linux" "amd64" "as-is")
        "x86_64" = false) := by
  refine ⟨?_, ?_, by decide, by decide, by decide, by decide⟩
  · intro c arch m h
    simp only [CDNDownloader.mapArchForCDN, h]
  · intro c arch h
    simp only [CDNDownloader.mapArchForCDN, h]

/-- Splitting characterization of `List.find?` on success. -/
theorem find?_split {α : Type} (p : α → Bool) (l : List α) (b : α)
    (h : l.find? p = some b) :
    ∃ l1 l2, l = l1 ++ b :: l2 ∧ p b = true ∧ ∀ a ∈ l1, p a = false := by
  induction l with
  | nil => simp [List.find?] at h
  | cons x xs ih =>
    by_cases hx : p x = true
    · rw [List.find?_cons_of_pos _ hx] at h
      obtain rfl : x = b := by injection h
      exact ⟨[], xs, rfl, hx, by simp⟩
    · rw [List.find?_cons_of_neg _ hx] at h
      obtain ⟨l1, l2, hsplit, hb, hneg⟩ := ih h
      refine ⟨x :: l1, l2, by rw [hsplit]; rfl, hb, ?_⟩
      intro a ha
      rcases List.mem_cons.mp ha with rfl | ha
      · exact Bool.not_eq_true _ ▸ (by simpa using hx)
      · exact hneg a ha

/-- C2 (code bug witness): under the default configuration's canonical
alias table, Flexible scoring is not platform-exclusive.  On
`linux/amd64` the name `x64` (an alias of the current architecture in
the canonical table) scores `0`, no higher than `riscv64`, which
contains only a foreign architecture alias: `getArchAliases` looks the
table up by the `MapArch` image `x86_64`, which is not a table key, so
the `amd64` alias row (including `x64`) is never used.  On
`linux/arm64` the name `arm64` itself scores `-2`, strictly below the
foreign-only `riscv64` at `0`, because the hard-coded wrong-platform
indicator `arm` occurs inside `arm64` and draws the −20 penalty. -/
theorem C2_platform_exclusivity_failing_input :
    (("amd64", ["amd64", "x86_64", "x64"])
        ∈ DefaultAssetMatchingConfig.architectureAliases ∧
     ("riscv64", ["riscv64"]) ∈ DefaultAssetMatchingConfig.architectureAliases) ∧
    (let am : AssetMatcher := ⟨DefaultAssetMatchingConfig, "linux", "amd64"⟩
     am.scoreAsset "x64" (am.getOSAliases "linux") (am.getArchAliases "amd64") = 0 ∧
     am.scoreAsset "riscv64" (am.getOSAliases "linux") (am.getArchAliases "amd64") = 0 ∧
     ¬(am.scoreAsset "riscv64" (am.getOSAliases "linux") (am.getArchAliases "amd64") <
        am.scoreAsset "x64" (am.getOSAliases "linux") (am.getArchAliases "amd64"))) ∧
    (let am2 : AssetMatcher := ⟨DefaultAssetMatchingConfig, "linux", "arm64"⟩
     am2.scoreAsset "arm64" (am2.getOSAliases "linux") (am2.getArchAliases "arm64") = -2 ∧
     am2.scoreAsset "riscv64" (am2.getOSAliases "linux") (am2.getArchAliases "arm64") = 0 ∧
     ¬(am2.scoreAsset "riscv64" (am2.getOSAliases "linux") (am2.getArchAliases "arm64") <
        am2.scoreAsset "arm64" (am2.getOSAliases "linux") (am2.getArchAliases "arm64"))) := by
  exact ⟨⟨by decide, by decide⟩,
    ⟨by decide, by decide, by decide⟩,
    ⟨by decide, by decide, by decide⟩⟩

/-- Under a non-empty input surviving exclusion, `FindBestMatch`
dispatches to the configured strategy's handler. -/
theorem FindBestMatch_dispatch (am : AssetMatcher) (assetNames : List String)
    (h2 : assetNames ≠ []) (h3 : am.filterExcludedAssets assetNames ≠ []) :
    am.FindBestMatch assetNames =
      match am.config.strategy with
      | .standardStrategy => am.findStandardMatch (am.filterExcludedAssets assetNames)
      | .flexibleStrategy => am.findFlexibleMatch (am.filterExcludedAssets assetNames)
      | .customStrategy => am.findCustomMatch (am.filterExcludedAssets assetNames)
      | .cdnStrategy => am.findCDNMatch
      | .hybridStrategy => am.findHybridMatch (am.filterExcludedAssets assetNames) := by
  unfold AssetMatcher.FindBestMatch
  rw [if_neg h2]
  simp only [if_neg h3]

/-- C5: with Standard strategy, resolution builds the single search key
`Title(OS) ++ "_" ++ MapArch(arch)`, returns the first surviving
candidate containing it as a substring, and fails with the
no-standard-match error exactly when no surviving candidate contains
it; on `linux/amd64` the scenario list resolves to
`app-Linux_x86_64.tar.gz`. -/
theorem C5_standard_first_match :
    (∀ (am : AssetMatcher) (assetNames : List String),
      am.config.strategy = .standardStrategy →
      assetNames ≠ [] →
      am.filterExcludedAssets assetNames ≠ [] →
      (∀ b, am.FindBestMatch assetNames = .ok b →
        ∃ l1 l2, am.filterExcludedAssets assetNames = l1 ++ b :: l2 ∧
          goContains b (goTitle (goToLower am.os) ++ "_" ++ MapArch am.arch) = true ∧
          ∀ a ∈ l1,
            goContains a (goTitle (goToLower am.os) ++ "_" ++ MapArch am.arch) = false) ∧
      (am.FindBestMatch assetNames
          = .error (.noStandardMatch (goTitle (goToLower am.os) ++ "_" ++ MapArch am.arch)) ↔
        ∀ a ∈ am.filterExcludedAssets assetNames,
          goContains a (goTitle (goToLower am.os) ++ "_" ++ MapArch am.arch) = false)) ∧
    (AssetMatcher.FindBestMatch
        ⟨{ DefaultAssetMatchingConfig with strategy := .standardStrategy }, "linux", "amd64"⟩
        ["app-Linux_x86_64.tar.gz", "app-Darwin_arm64.tar.gz"]
      = .ok "app-Linux_x86_64.tar.gz") := by
  constructor
  · intro am assetNames h1 h2 h3
    have hF : am.FindBestMatch assetNames
        = am.findStandardMatch (am.filterExcludedAssets assetNames) := by
      rw [FindBestMatch_dispatch am assetNames h2 h3, h1]
    set key := goTitle (goToLower am.os) ++ "_" ++ MapArch am.arch with hkey
    have hstd : am.findStandardMatch (am.filterExcludedAssets assetNames) =
        match (am.filterExcludedAssets assetNames).find?
            (fun name => goContains name key) with
        | some name => .ok name
        | none => .error (.noStandardMatch key) := rfl
    constructor
    · intro b hb
      rw [hF, hstd] at hb
      rcases hfind : (am.filterExcludedAssets assetNames).find?
          (fun name => goContains name key) with _ | name
      · rw [hfind] at hb
        exact absurd hb (by simp)
      · rw [hfind] at hb
        obtain rfl : name = b := by injection hb
        obtain ⟨l1, l2, hsplit, hbt, hneg⟩ := find?_split _ _ _ hfind
        exact ⟨l1, l2, hsplit, hbt, fun a ha => by simpa using hneg a ha⟩
    · rw [hF, hstd]
      rcases hfind : (am.filterExcludedAssets assetNames).find?
          (fun name => goContains name key) with _ | name
      · simp only [hfind]
        constructor
        · intro _ a ha
          have := List.find?_eq_none.mp hfind a ha
          simpa using this
        · intro _
          trivial
      · simp only [hfind]
        constructor
        · intro h
          exact absurd h (by simp)
        · intro hall
          have hnone : (am.filterExcludedAssets assetNames).find?
              (fun name => goContains name key) = none :=
            List.find?_eq_none.mpr (fun a ha => by simp [hall a ha])
          rw [hnone] at hfind
          exact absurd hfind (by simp)
  · rfl

/-- Invariant of the flexible scoring loop: either no candidate beats
the accumulator and it survives unchanged, or the result is the first
candidate attaining the running maximum, every earlier candidate
scoring strictly lower and every later one no higher. -/
theorem flexFold_inv (score : String → Int) (l : List String) :
    ∀ acc : Int × String,
      (List.foldl (flexStep score) acc l = acc ∧ ∀ a ∈ l, score a ≤ acc.1) ∨
      (∃ l1 b l2, l = l1 ++ b :: l2 ∧
        List.foldl (flexStep score) acc l = (score b, b) ∧
        acc.1 < score b ∧ (∀ a ∈ l1, score a < score b) ∧
        ∀ a ∈ l2, score a ≤ score b) := by
  induction l with
  | nil =>
    intro acc
    left
    exact ⟨rfl, by simp⟩
  | cons x xs ih =>
    intro acc
    by_cases hx : score x > acc.1
    · have hstep : List.foldl (flexStep score) acc (x :: xs)
          = List.foldl (flexStep score) (score x, x) xs := by
        simp [List.foldl_cons, flexStep, if_pos hx]
      rcases ih (score x, x) with ⟨heq, hle⟩ | ⟨l1, b, l2, hsplit, hres, hlt, hall1, hall2⟩
      · right
        refine ⟨[], x, xs, rfl, by rw [hstep, heq], hx, by simp, by simpa using hle⟩
      · right
        refine ⟨x :: l1, b, l2, by rw [hsplit]; rfl, by rw [hstep, hres],
          lt_trans hx hlt, ?_, hall2⟩
        intro a ha
        rcases List.mem_cons.mp ha with rfl | ha
        · exact hlt
        · exact hall1 a ha
    · push_neg at hx
      have hstep : List.foldl (flexStep score) acc (x :: xs)
          = List.foldl (flexStep score) acc xs := by
        simp only [List.foldl_cons, flexStep]
        rw [if_neg (by omega)]
      rcases ih acc with ⟨heq, hle⟩ | ⟨l1, b, l2, hsplit, hres, hlt, hall1, hall2⟩
      · left
        refine ⟨by rw [hstep, heq], ?_⟩
        intro a ha
        rcases List.mem_cons.mp ha with rfl | ha
        · exact hx
        · exact hle a ha
      · right
        refine ⟨x :: l1, b, l2, by rw [hsplit]; rfl, by rw [hstep, hres],
          hlt, ?_, hall2⟩
        intro a ha
        rcases List.mem_cons.mp ha with rfl | ha
        · exact lt_of_le_of_lt hx hlt
        · exact hall1 a ha

/-- C1: with Flexible strategy, for every configuration and every
candidate list surviving exclusion filtering, resolution returns the
candidate with the highest score — ties resolving to the earliest
candidate in input order, since a later candidate replaces the current
best only when its score is strictly greater — and fails with the
no-flexible-match error exactly when no candidate scores strictly
above zero. -/
theorem C1_flexible_highest_score (am : AssetMatcher) (assetNames : List String)
    (h1 : am.config.strategy = .flexibleStrategy)
    (h2 : assetNames ≠ [])
    (h3 : am.filterExcludedAssets assetNames ≠ []) :
    (∀ b, am.FindBestMatch assetNames = .ok b →
      ∃ l1 l2, am.filterExcludedAssets assetNames = l1 ++ b :: l2 ∧
        0 < am.flexScore b ∧
        (∀ a ∈ am.filterExcludedAssets assetNames, am.flexScore a ≤ am.flexScore b) ∧
        ∀ a ∈ l1, am.flexScore a < am.flexScore b) ∧
    (am.FindBestMatch assetNames = .error (.noFlexibleMatch am.os am.arch) ↔
      ∀ a ∈ am.filterExcludedAssets assetNames, am.flexScore a ≤ 0) := by
  have hF : am.FindBestMatch assetNames
      = am.findFlexibleMatch (am.filterExcludedAssets assetNames) := by
    rw [FindBestMatch_dispatch am assetNames h2 h3, h1]
  have hFlex : am.findFlexibleMatch (am.filterExcludedAssets assetNames)
      = if (flexFold am.flexScore (am.filterExcludedAssets assetNames)).1 = 0 then
          .error (.noFlexibleMatch am.os am.arch)
        else .ok (flexFold am.flexScore (am.filterExcludedAssets assetNames)).2 := rfl
  rcases flexFold_inv am.flexScore (am.filterExcludedAssets assetNames) (0, "")
    with ⟨heq, hle⟩ | ⟨l1, b, l2, hsplit, hres, hpos, hall1, hall2⟩
  · -- no candidate scores above zero: the fold is unchanged at (0, "")
    have hfold : flexFold am.flexScore (am.filterExcludedAssets assetNames) = (0, "") := heq
    constructor
    · intro b hb
      rw [hF, hFlex, hfold] at hb
      exact absurd hb (by simp)
    · rw [hF, hFlex, hfold]
      simp only [if_pos rfl]
      exact ⟨fun _ a ha => by simpa using hle a ha, fun _ => rfl⟩
  · -- some candidate scores above zero: the fold holds the first maximum
    have hfold : flexFold am.flexScore (am.filterExcludedAssets assetNames)
        = (am.flexScore b, b) := hres
    have hbne : (am.flexScore b) ≠ 0 := by omega
    constructor
    · intro b' hb'
      rw [hF, hFlex, hfold] at hb'
      rw [if_neg hbne] at hb'
      obtain rfl : b = b' := by injection hb'
      refine ⟨l1, l2, hsplit, hpos, ?_, hall1⟩
      intro a ha
      rw [hsplit] at ha
      rcases List.mem_append.mp ha with ha | ha
      · exact le_of_lt (hall1 a ha)
      · rcases List.mem_cons.mp ha with rfl | ha
        · exact le_refl _
        · exact hall2 a ha
    · rw [hF, hFlex, hfold]
      rw [if_neg hbne]
      constructor
      · intro h
        exact absurd h (by simp)
      · intro hall
        have hmem : b ∈ am.filterExcludedAssets assetNames := by
          rw [hsplit]
          exact List.mem_append.mpr (Or.inr (List.mem_cons_self b l2))
        exact absurd (hall b hmem) (by omega)

/-- C6: with Hybrid strategy, a non-empty CDN base URL and pattern, and
surviving candidates on which Flexible matching fails, resolution
returns the CDN URL: base URL concatenated with the pattern, with the
os and arch placeholders replaced by the first alias of the current OS
and architecture (`headD ""` models Go's `aliases[0]` indexing) and
the version placeholder left unsubstituted; in the scenario the result
contains `https://example.com/`. -/
theorem C6_hybrid_cdn_fallback :
    (∀ (am : AssetMatcher) (assetNames : List String),
      am.config.strategy = .hybridStrategy →
      am.config.cdnBaseURL ≠ "" →
      am.config.cdnPattern ≠ "" →
      assetNames ≠ [] →
      am.filterExcludedAssets assetNames ≠ [] →
      (∃ e, am.findFlexibleMatch (am.filterExcludedAssets assetNames) = .error e) →
      am.FindBestMatch assetNames = .ok
        (goReplaceAll
          (goReplaceAll (am.config.cdnBaseURL ++ am.config.cdnPattern)
            "{os}" ((am.getOSAliases am.os).headD ""))
          "{arch}" ((am.getArchAliases am.arch).headD ""))) ∧
    (AssetMatcher.FindBestMatch
        ⟨{ DefaultAssetMatchingConfig with
            strategy := .hybridStrategy,
            cdnBaseURL := "https://example.com/",
            cdnPattern := "{version}/x_{os}_{arch}.zip" }, "linux", "amd64"⟩
        ["unrelated.txt"]
      = .ok "https://example.com/{version}/x_linux_amd64.zip") ∧
    goContains "https://example.com/{version}/x_linux_amd64.zip"
      "https://example.com/" = true ∧
    goContains "https://example.com/{version}/x_linux_amd64.zip"
      "{version}" = true := by
  refine ⟨?_, rfl, by decide, by decide⟩
  intro am assetNames h1 hbase hpat h2 h3 hflex
  have hcdn : am.findCDNMatch = .ok
      (goReplaceAll
        (goReplaceAll (am.config.cdnBaseURL ++ am.config.cdnPattern)
          "{os}" ((am.getOSAliases am.os).headD ""))
        "{arch}" ((am.getArchAliases am.arch).headD "")) := by
    simp [AssetMatcher.findCDNMatch, hbase, hpat]
  rw [FindBestMatch_dispatch am assetNames h2 h3, h1]
  unfold AssetMatcher.findHybridMatch
  obtain ⟨e, he⟩ := hflex
  rw [if_pos (List.length_pos.mpr h3), he, hcdn]

/-- A pattern that fails to compile never matches under the
error-discarding `MatchString` idiom. -/
theorem goMatchIgnoreErr_of_compile_none (p s : String)
    (h : compilePattern p = none) : goMatchIgnoreErr p s = false := by
  unfold goMatchIgnoreErr goMatchString
  rw [h]
  rfl

/-- `customLoop` only reads the project name from the matcher; two
matchers agreeing on it run the loop identically. -/
theorem customLoop_congr (am1 am2 : AssetMatcher)
    (h : am1.config.projectName = am2.config.projectName)
    (assets osAliases archAliases : List String) :
    ∀ ps, am1.customLoop assets osAliases archAliases ps
      = am2.customLoop assets osAliases archAliases ps := by
  intro ps
  induction ps with
  | nil => rfl
  | cons p rest ih =>
    have hexp : am1.expandPattern p osAliases archAliases
        = am2.expandPattern p osAliases archAliases := by
      unfold AssetMatcher.expandPattern
      rw [h]
    simp only [AssetMatcher.customLoop, hexp, ih]

/-- C10: a pattern that is not a valid regular expression is silently
ignored.  An exclusion pattern that fails to compile excludes nothing
(filtering with it at the head equals filtering without it), a custom
pattern that fails to compile is skipped with matching continuing
through the remaining patterns in declaration order, and Custom
resolution with the malformed pattern present equals resolution with
it dropped — no error for the malformed pattern itself is surfaced. -/
theorem C10_invalid_patterns_silently_skipped :
    (∀ (am : AssetMatcher) (p : String) (rest assetNames : List String),
      compilePattern (goToLower p) = none →
      AssetMatcher.filterExcludedAssets
          { am with config := { am.config with excludePatterns := p :: rest } } assetNames
        = AssetMatcher.filterExcludedAssets
          { am with config := { am.config with excludePatterns := rest } } assetNames) ∧
    (∀ (am : AssetMatcher) (p : String)
        (rest assetNames osAliases archAliases : List String),
      compilePattern (am.expandPattern p osAliases archAliases) = none →
      am.customLoop assetNames osAliases archAliases (p :: rest)
        = am.customLoop assetNames osAliases archAliases rest) ∧
    (∀ (am : AssetMatcher) (p : String) (rest assetNames : List String),
      am.config.strategy = .customStrategy →
      rest ≠ [] →
      assetNames ≠ [] →
      am.filterExcludedAssets assetNames ≠ [] →
      compilePattern
        (am.expandPattern p (am.getOSAliases am.os) (am.getArchAliases am.arch)) = none →
      AssetMatcher.FindBestMatch
          { am with config := { am.config with customPatterns := p :: rest } } assetNames
        = AssetMatcher.FindBestMatch
          { am with config := { am.config with customPatterns := rest } } assetNames) := by
  have skipLoop : ∀ (am : AssetMatcher) (p : String)
      (rest assetNames osAliases archAliases : List String),
      compilePattern (am.expandPattern p osAliases archAliases) = none →
      am.customLoop assetNames osAliases archAliases (p :: rest)
        = am.customLoop assetNames osAliases archAliases rest := by
    intro am p rest assetNames osAliases archAliases h
    simp only [AssetMatcher.customLoop, h]
  refine ⟨?_, skipLoop, ?_⟩
  · intro am p rest assetNames h
    have hfalse : ∀ s, goMatchIgnoreErr (goToLower p) s = false :=
      fun s => goMatchIgnoreErr_of_compile_none _ s h
    by_cases hrest : rest = []
    · subst hrest
      show (if (p :: [] : List String) = [] then assetNames else _)
        = (if ([] : List String) = [] then assetNames else _)
      rw [if_neg (by simp), if_pos rfl]
      simp [hfalse]
    · show (if (p :: rest : List String) = [] then assetNames else _)
        = (if rest = [] then assetNames else _)
      rw [if_neg (by simp), if_neg hrest]
      apply List.filter_congr
      intro a _
      simp [List.any_cons, hfalse]
  · intro am p rest assetNames hstrat hrest hne hfe hcomp
    have dispatchC : ∀ (X : AssetMatcher),
        X.config.strategy = .customStrategy →
        assetNames ≠ [] → X.filterExcludedAssets assetNames ≠ [] →
        X.FindBestMatch assetNames
          = X.findCustomMatch (X.filterExcludedAssets assetNames) := by
      intro X hs hn hf
      rw [FindBestMatch_dispatch X assetNames hn hf, hs]
    have hA := dispatchC
      { am with config := { am.config with customPatterns := p :: rest } } hstrat hne hfe
    have hB := dispatchC
      { am with config := { am.config with customPatterns := rest } } hstrat hne hfe
    rw [hA, hB]
    have h1 : AssetMatcher.findCustomMatch
        { am with config := { am.config with customPatterns := p :: rest } }
        (am.filterExcludedAssets assetNames)
      = (match am.customLoop (am.filterExcludedAssets assetNames)
            (am.getOSAliases am.os) (am.getArchAliases am.arch) (p :: rest) with
        | some assetName => Except.ok assetName
        | none => Except.error MatchError.noCustomMatch) := by
      show (match AssetMatcher.customLoop
            { am with config := { am.config with customPatterns := p :: rest } }
            (am.filterExcludedAssets assetNames)
            (am.getOSAliases am.os) (am.getArchAliases am.arch) (p :: rest) with
        | some assetName => Except.ok assetName
        | none => Except.error MatchError.noCustomMatch) = _
      rw [customLoop_congr
        { am with config := { am.config with customPatterns := p :: rest } } am rfl
        (am.filterExcludedAssets assetNames)
        (am.getOSAliases am.os) (am.getArchAliases am.arch) (p :: rest)]
    have h2 : AssetMatcher.findCustomMatch
        { am with config := { am.config with customPatterns := rest } }
        (am.filterExcludedAssets assetNames)
      = (match am.customLoop (am.filterExcludedAssets assetNames)
            (am.getOSAliases am.os) (am.getArchAliases am.arch) rest with
        | some assetName => Except.ok assetName
        | none => Except.error MatchError.noCustomMatch) := by
      show (if rest = [] then Except.error MatchError.noCustomPatternsDefined
          else (match AssetMatcher.customLoop
            { am with config := { am.config with customPatterns := rest } }
            (am.filterExcludedAssets assetNames)
            (am.getOSAliases am.os) (am.getArchAliases am.arch) rest with
        | some assetName => Except.ok assetName
        | none => Except.error MatchError.noCustomMatch)) = _
      rw [if_neg hrest]
      rw [customLoop_congr
        { am with config := { am.config with customPatterns := rest } } am rfl
        (am.filterExcludedAssets assetNames)
        (am.getOSAliases am.os) (am.getArchAliases am.arch) rest]
    have hmid : (match am.customLoop (am.filterExcludedAssets assetNames)
          (am.getOSAliases am.os) (am.getArchAliases am.arch) (p :: rest) with
        | some assetName => Except.ok assetName
        | none => Except.error MatchError.noCustomMatch)
      = (match am.customLoop (am.filterExcludedAssets assetNames)
          (am.getOSAliases am.os) (am.getArchAliases am.arch) rest with
        | some assetName => Except.ok assetName
        | none => Except.error MatchError.noCustomMatch) := by
      rw [skipLoop am p rest (am.filterExcludedAssets assetNames)
        (am.getOSAliases am.os) (am.getArchAliases am.arch) hcomp]
    exact h1.trans (hmid.trans h2.symm)

/-- An attempt outcome on which `Do` retries: a retryable status or any
network-level error. -/
def retryableOutcome : AttemptOutcome → Bool
  | .resp status => shouldRetry status
  | .netErr _ => true

/-- How one attempt outcome updates the `lastErr` variable of `Do`. -/
def nextLastErr (o : AttemptOutcome) (le : Option String) : Option String :=
  match o with
  | .netErr msg => some msg
  | .resp _ => le

/-- Unfolding one retried attempt of the loop: a retryable outcome below
the retry budget records a failure and recurses, counting one issued
attempt. -/
theorem doLoop_step (cfg : HTTPClientConfig) (backend : Nat → AttemptOutcome)
    (now fuel attempt : Nat) (st : CircuitState) (le : Option String)
    (hr : retryableOutcome (backend attempt) = true)
    (hlt : attempt < cfg.maxRetries) :
    doLoop cfg backend now (fuel + 1) attempt st le
      = ((doLoop cfg backend now fuel (attempt + 1) (recordFailure cfg st now)
            (nextLastErr (backend attempt) le)).1,
         (doLoop cfg backend now fuel (attempt + 1) (recordFailure cfg st now)
            (nextLastErr (backend attempt) le)).2.1,
         (doLoop cfg backend now fuel (attempt + 1) (recordFailure cfg st now)
            (nextLastErr (backend attempt) le)).2.2 + 1) := by
  cases hb : backend attempt with
  | resp status =>
    rw [hb] at hr
    have hs : shouldRetry status = true := by
      simpa [retryableOutcome] using hr
    simp only [doLoop, hb, nextLastErr]
    by_cases h429 : status = 429
    · rw [if_pos h429, if_pos hlt]
    · rw [if_neg h429, if_pos hs, if_pos hlt]
  | netErr msg =>
    simp only [doLoop, hb, nextLastErr]

/-- Unfolding a successful attempt: a non-retryable status response
returns immediately with the circuit breaker reset. -/
theorem doLoop_success (cfg : HTTPClientConfig) (backend : Nat → AttemptOutcome)
    (now fuel attempt : Nat) (st : CircuitState) (le : Option String) (s : Nat)
    (hb : backend attempt = .resp s) (hs : shouldRetry s = false) :
    doLoop cfg backend now (fuel + 1) attempt st le
      = (.ok s, resetCircuitBreaker st, 1) := by
  have h429 : s ≠ 429 := by
    intro h
    rw [h] at hs
    simp [shouldRetry] at hs
  simp only [doLoop, hb]
  rw [if_neg h429, if_neg (by simp [hs])]

/-- Unfolding the final attempt on a retryable non-429 status: the
budget is exhausted and the server-error failure reports
`maxRetries + 1` attempts. -/
theorem doLoop_last_server (cfg : HTTPClientConfig) (backend : Nat → AttemptOutcome)
    (now fuel : Nat) (st : CircuitState) (le : Option String) (s : Nat)
    (hb : backend cfg.maxRetries = .resp s) (hs : shouldRetry s = true) (h429 : s ≠ 429) :
    doLoop cfg backend now (fuel + 1) cfg.maxRetries st le
      = (.error (.serverError s (cfg.maxRetries + 1)), recordFailure cfg st now, 1) := by
  simp only [doLoop, hb]
  rw [if_neg h429, if_pos hs, if_neg (lt_irrefl cfg.maxRetries)]

/-- Unfolding the final attempt on a 429 status: the rate-limited
failure reports `maxRetries + 1` attempts. -/
theorem doLoop_last_429 (cfg : HTTPClientConfig) (backend : Nat → AttemptOutcome)
    (now fuel : Nat) (st : CircuitState) (le : Option String)
    (hb : backend cfg.maxRetries = .resp 429) :
    doLoop cfg backend now (fuel + 1) cfg.maxRetries st le
      = (.error (.rateLimited (cfg.maxRetries + 1)), recordFailure cfg st now, 1) := by
  simp only [doLoop, hb]
  rw [if_pos trivial, if_neg (lt_irrefl cfg.maxRetries)]

/-- Unfolding the final attempt on a network error: the loop exits and
the request-failed error reports `maxRetries + 1` attempts and carries
that last network error. -/
theorem doLoop_last_netErr (cfg : HTTPClientConfig) (backend : Nat → AttemptOutcome)
    (now : Nat) (st : CircuitState) (le : Option String) (msg : String)
    (hb : backend cfg.maxRetries = .netErr msg) :
    doLoop cfg backend now 1 cfg.maxRetries st le
      = (.error (.requestFailed (cfg.maxRetries + 1) (some msg)),
         recordFailure cfg st now, 1) := by
  simp only [doLoop, hb]

/-- Skipping `k` retried attempts: with every outcome before `attempt+k`
retryable and the budget not yet exhausted, the loop result is the
result from attempt `attempt+k` (for some intermediate circuit state
and last-error), with `k` more issued attempts. -/
theorem doLoop_skip (cfg : HTTPClientConfig) (backend : Nat → AttemptOutcome) (now : Nat) :
    ∀ (k attempt : Nat) (st : CircuitState) (le : Option String),
      (∀ i, i < k → retryableOutcome (backend (attempt + i)) = true) →
      attempt + k ≤ cfg.maxRetries →
      ∃ (st' : CircuitState) (le' : Option String),
        doLoop cfg backend now (cfg.maxRetries + 1 - attempt) attempt st le
          = ((doLoop cfg backend now (cfg.maxRetries + 1 - (attempt + k))
                (attempt + k) st' le').1,
             (doLoop cfg backend now (cfg.maxRetries + 1 - (attempt + k))
                (attempt + k) st' le').2.1,
             (doLoop cfg backend now (cfg.maxRetries + 1 - (attempt + k))
                (attempt + k) st' le').2.2 + k) := by
  intro k
  induction k with
  | zero =>
    intro attempt st le _ _
    exact ⟨st, le, by simp⟩
  | succ k ih =>
    intro attempt st le h1 h2
    have hfuel : cfg.maxRetries + 1 - attempt = (cfg.maxRetries - attempt) + 1 := by
      omega
    have hstep := doLoop_step cfg backend now (cfg.maxRetries - attempt) attempt st le
      (h1 0 (by omega))
      (by omega)
    obtain ⟨st', le', hrec⟩ := ih (attempt + 1) (recordFailure cfg st now)
      (nextLastErr (backend attempt) le)
      (fun i hi => by
        have := h1 (i + 1) (by omega)
        rwa [show attempt + (i + 1) = attempt + 1 + i from by omega] at this)
      (by omega)
    rw [show cfg.maxRetries + 1 - (attempt + 1) = cfg.maxRetries - attempt from by omega]
      at hrec
    refine ⟨st', le', ?_⟩
    rw [hfuel, hstep, hrec]
    rw [show attempt + 1 + k = attempt + (k + 1) from by omega]
    refine congrArg _ (congrArg _ ?_)
    dsimp only
    omega

/-- When the circuit-breaker gate does not trip (breaker disabled, or
the circuit reports closed), `Do` runs the retry loop from attempt 0 on
the state left by the gate check. -/
theorem transportDo_closed (cfg : HTTPClientConfig) (st : CircuitState) (now : Nat)
    (backend : Nat → AttemptOutcome)
    (hcb : cfg.circuitBreaker = false ∨ (isCircuitOpen st now).1 = false) :
    transportDo cfg st now backend
      = doLoop cfg backend now (cfg.maxRetries + 1) 0
          (if cfg.circuitBreaker then (isCircuitOpen st now).2 else st) none := by
  by_cases hc : cfg.circuitBreaker = true
  · have hopen : (isCircuitOpen st now).1 = false := by
      rcases hcb with h | h
      · rw [h] at hc
        cases hc
      · exact h
    have hpair : isCircuitOpen st now = (false, (isCircuitOpen st now).2) := by
      rw [← hopen]
    unfold transportDo
    rw [if_pos hc, if_pos hc]
    conv_lhs => rw [hpair]
    rfl
  · have hc' : cfg.circuitBreaker = false := by simpa using hc
    unfold transportDo
    rw [hc']
    simp

/-- C4: the transport retries an attempt exactly when the status is one
of 429, 500, 502, 503, 504 or the attempt failed at the network level:
any other status is returned on its first occurrence with no further
attempt, and exhausting the budget on retryable outcomes fails with an
error reporting `MaxRetries + 1` attempts — rate-limited for a final
429, server-error for another retryable status, and request-failed
carrying the last network error when the final attempt was one. -/
theorem C4_retry_exactly_retryable_statuses :
    (∀ s : Nat, shouldRetry s = true ↔ s ∈ [429, 500, 502, 503, 504]) ∧
    (∀ (cfg : HTTPClientConfig) (st : CircuitState) (now : Nat)
        (backend : Nat → AttemptOutcome) (k s : Nat),
      cfg.circuitBreaker = false ∨ (isCircuitOpen st now).1 = false →
      k ≤ cfg.maxRetries →
      (∀ i, i < k → retryableOutcome (backend i) = true) →
      backend k = .resp s →
      shouldRetry s = false →
      (transportDo cfg st now backend).1 = .ok s ∧
      (transportDo cfg st now backend).2.2 = k + 1) ∧
    (∀ (cfg : HTTPClientConfig) (st : CircuitState) (now : Nat)
        (backend : Nat → AttemptOutcome) (s : Nat),
      cfg.circuitBreaker = false ∨ (isCircuitOpen st now).1 = false →
      (∀ i, i < cfg.maxRetries → retryableOutcome (backend i) = true) →
      backend cfg.maxRetries = .resp s →
      shouldRetry s = true →
      s ≠ 429 →
      (transportDo cfg st now backend).1
          = .error (.serverError s (cfg.maxRetries + 1)) ∧
      (transportDo cfg st now backend).2.2 = cfg.maxRetries + 1) ∧
    (∀ (cfg : HTTPClientConfig) (st : CircuitState) (now : Nat)
        (backend : Nat → AttemptOutcome),
      cfg.circuitBreaker = false ∨ (isCircuitOpen st now).1 = false →
      (∀ i, i < cfg.maxRetries → retryableOutcome (backend i) = true) →
      backend cfg.maxRetries = .resp 429 →
      (transportDo cfg st now backend).1
          = .error (.rateLimited (cfg.maxRetries + 1)) ∧
      (transportDo cfg st now backend).2.2 = cfg.maxRetries + 1) ∧
    (∀ (cfg : HTTPClientConfig) (st : CircuitState) (now : Nat)
        (backend : Nat → AttemptOutcome) (msg : String),
      cfg.circuitBreaker = false ∨ (isCircuitOpen st now).1 = false →
      (∀ i, i < cfg.maxRetries → retryableOutcome (backend i) = true) →
      backend cfg.maxRetries = .netErr msg →
      (transportDo cfg st now backend).1
          = .error (.requestFailed (cfg.maxRetries + 1) (some msg)) ∧
      (transportDo cfg st now backend).2.2 = cfg.maxRetries + 1) := by
  have hfuel0 : ∀ m : Nat, m + 1 - 0 = m + 1 := fun m => by omega
  refine ⟨?_, ?_, ?_, ?_, ?_⟩
  · intro s
    simp only [shouldRetry, Bool.or_eq_true, decide_eq_true_eq,
      List.mem_cons, List.not_mem_nil, or_false]
    tauto
  · intro cfg st now backend k s hcb hk h1 hb hs
    rw [transportDo_closed cfg st now backend hcb]
    obtain ⟨st', le', hskip⟩ := doLoop_skip cfg backend now k 0
      (if cfg.circuitBreaker then (isCircuitOpen st now).2 else st) none
      (fun i hi => by simpa using h1 i hi) (by omega)
    rw [hfuel0, Nat.zero_add] at hskip
    rw [hskip]
    rw [show cfg.maxRetries + 1 - k = (cfg.maxRetries - k) + 1 from by omega,
      doLoop_success cfg backend now (cfg.maxRetries - k) k st' le' s hb hs]
    exact ⟨rfl, by dsimp only; omega⟩
  · intro cfg st now backend s hcb h1 hb hs h429
    rw [transportDo_closed cfg st now backend hcb]
    obtain ⟨st', le', hskip⟩ := doLoop_skip cfg backend now cfg.maxRetries 0
      (if cfg.circuitBreaker then (isCircuitOpen st now).2 else st) none
      (fun i hi => by simpa using h1 i hi) (by omega)
    rw [hfuel0, Nat.zero_add] at hskip
    rw [hskip]
    rw [show cfg.maxRetries + 1 - cfg.maxRetries = 0 + 1 from by omega,
      doLoop_last_server cfg backend now 0 st' le' s hb hs h429]
    exact ⟨rfl, by dsimp only; omega⟩
  · intro cfg st now backend hcb h1 hb
    rw [transportDo_closed cfg st now backend hcb]
    obtain ⟨st', le', hskip⟩ := doLoop_skip cfg backend now cfg.maxRetries 0
      (if cfg.circuitBreaker then (isCircuitOpen st now).2 else st) none
      (fun i hi => by simpa using h1 i hi) (by omega)
    rw [hfuel0, Nat.zero_add] at hskip
    rw [hskip]
    rw [show cfg.maxRetries + 1 - cfg.maxRetries = 0 + 1 from by omega,
      doLoop_last_429 cfg backend now 0 st' le' hb]
    exact ⟨rfl, by dsimp only; omega⟩
  · intro cfg st now backend msg hcb h1 hb
    rw [transportDo_closed cfg st now backend hcb]
    obtain ⟨st', le', hskip⟩ := doLoop_skip cfg backend now cfg.maxRetries 0
      (if cfg.circuitBreaker then (isCircuitOpen st now).2 else st) none
      (fun i hi => by simpa using h1 i hi) (by omega)
    rw [hfuel0, Nat.zero_add] at hskip
    rw [hskip]
    rw [show cfg.maxRetries + 1 - cfg.maxRetries = 1 from by omega,
      doLoop_last_netErr cfg backend now st' le' msg hb]
    exact ⟨rfl, by dsimp only; omega⟩

/-- C9: a first-attempt response with any status outside the retryable
set — including 404 and 401 — is returned with no error and exactly one
issued attempt, and this path resets the circuit breaker exactly like a
2xx success: the final state has a zero consecutive-failure counter and
a closed circuit, whatever the incoming counter was (so a non-retryable
error status never increments the counter and closes an about-to-open
circuit, as the concrete run from failure count 4 shows). -/
theorem C9_non_retryable_resets_circuit :
    (shouldRetry 404 = false ∧ shouldRetry 401 = false ∧ shouldRetry 200 = false) ∧
    (∀ (cfg : HTTPClientConfig) (st : CircuitState) (now : Nat)
        (backend : Nat → AttemptOutcome) (s : Nat),
      cfg.circuitBreaker = false ∨ (isCircuitOpen st now).1 = false →
      backend 0 = .resp s →
      shouldRetry s = false →
      transportDo cfg st now backend
        = (.ok s,
           resetCircuitBreaker
             (if cfg.circuitBreaker then (isCircuitOpen st now).2 else st),
           1)) ∧
    (∀ st1 : CircuitState,
      (resetCircuitBreaker st1).failureCount = 0 ∧
      (resetCircuitBreaker st1).circuitOpen = false) ∧
    (∀ (cfg : HTTPClientConfig) (st : CircuitState) (now : Nat)
        (backend1 backend2 : Nat → AttemptOutcome) (s1 s2 : Nat),
      cfg.circuitBreaker = false ∨ (isCircuitOpen st now).1 = false →
      backend1 0 = .resp s1 → shouldRetry s1 = false →
      backend2 0 = .resp s2 → shouldRetry s2 = false →
      (transportDo cfg st now backend1).2.1 = (transportDo cfg st now backend2).2.1) ∧
    (transportDo ⟨3, true⟩ ⟨4, 0, false⟩ 0 (fun _ => .resp 404)
      = (.ok 404, ⟨0, 0, false⟩, 1)) := by
  have main : ∀ (cfg : HTTPClientConfig) (st : CircuitState) (now : Nat)
      (backend : Nat → AttemptOutcome) (s : Nat),
      cfg.circuitBreaker = false ∨ (isCircuitOpen st now).1 = false →
      backend 0 = .resp s →
      shouldRetry s = false →
      transportDo cfg st now backend
        = (.ok s,
           resetCircuitBreaker
             (if cfg.circuitBreaker then (isCircuitOpen st now).2 else st),
           1) := by
    intro cfg st now backend s hcb hb hs
    rw [transportDo_closed cfg st now backend hcb]
    exact doLoop_success cfg backend now cfg.maxRetries 0 _ none s hb hs
  refine ⟨⟨by decide, by decide, by decide⟩, main, fun st1 => ⟨rfl, rfl⟩, ?_, rfl⟩
  intro cfg st now backend1 backend2 s1 s2 hcb hb1 hs1 hb2 hs2
  rw [main cfg st now backend1 s1 hcb hb1 hs1, main cfg st now backend2 s2 hcb hb2 hs2]

/-- C3: with the circuit breaker enabled, `MaxRetries = 0` and a
backend that always answers 500, each of the first five calls fails
with the server-error result and increments the consecutive-failure
counter to 1..5, the circuit opens on the fifth failure, the sixth
call (made at most 60 seconds after the fifth failure) fails with the
circuit-open error having issued zero network requests, and once more
than 60 seconds have elapsed since the last recorded failure the
circuit reports closed with the counter reset to zero. -/
theorem C3_circuit_breaker_lifecycle (t1 t2 t3 t4 t5 t6 t7 : Nat)
    (h6 : t6 - t5 ≤ 60) (h7 : t7 - t5 > 60) :
    transportDo ⟨0, true⟩ newCircuitState t1 (fun _ => .resp 500)
      = (.error (.serverError 500 1), ⟨1, t1, false⟩, 1) ∧
    transportDo ⟨0, true⟩ ⟨1, t1, false⟩ t2 (fun _ => .resp 500)
      = (.error (.serverError 500 1), ⟨2, t2, false⟩, 1) ∧
    transportDo ⟨0, true⟩ ⟨2, t2, false⟩ t3 (fun _ => .resp 500)
      = (.error (.serverError 500 1), ⟨3, t3, false⟩, 1) ∧
    transportDo ⟨0, true⟩ ⟨3, t3, false⟩ t4 (fun _ => .resp 500)
      = (.error (.serverError 500 1), ⟨4, t4, false⟩, 1) ∧
    transportDo ⟨0, true⟩ ⟨4, t4, false⟩ t5 (fun _ => .resp 500)
      = (.error (.serverError 500 1), ⟨5, t5, true⟩, 1) ∧
    transportDo ⟨0, true⟩ ⟨5, t5, true⟩ t6 (fun _ => .resp 500)
      = (.error .circuitOpenErr, ⟨5, t5, true⟩, 0) ∧
    isCircuitOpen ⟨5, t5, true⟩ t7 = (false, ⟨0, t5, false⟩) := by
  refine ⟨rfl, rfl, rfl, rfl, rfl, ?_, ?_⟩
  · have h6' : ¬(t6 - t5 > circuitTimeout) := by
      simp only [circuitTimeout]
      omega
    simp [transportDo, isCircuitOpen, h6']
  · have h7' : t7 - t5 > circuitTimeout := by
      simp only [circuitTimeout]
      omega
    simp [isCircuitOpen, h7']

/-- Witness for C1 at a concrete input: on `linux/amd64` with the
default Flexible configuration, resolution of `["linux"]` does not fail
with the no-flexible-match error, since `linux` survives filtering and
scores above zero. -/
theorem C1_flexible_highest_score_witness :
    (["linux"] : List String) ≠ [] ∧
    AssetMatcher.filterExcludedAssets
      ⟨DefaultAssetMatchingConfig, "linux", "amd64"⟩ ["linux"] ≠ [] ∧
    ¬(AssetMatcher.FindBestMatch ⟨DefaultAssetMatchingConfig, "linux", "amd64"⟩ ["linux"]
      = .error (.noFlexibleMatch "linux" "amd64")) := by
  refine ⟨by decide, by decide, fun herr => ?_⟩
  have h := (C1_flexible_highest_score
    ⟨DefaultAssetMatchingConfig, "linux", "amd64"⟩ ["linux"]
    rfl (by decide) (by decide)).2.mp herr "linux" (by decide)
  exact absurd h (by decide)

/-- Witness for C3 at concrete call times 1..6 and a probe at 100. -/
theorem C3_circuit_breaker_lifecycle_witness :
    transportDo ⟨0, true⟩ ⟨5, 5, true⟩ 6 (fun _ => .resp 500)
      = (.error .circuitOpenErr, ⟨5, 5, true⟩, 0) ∧
    isCircuitOpen ⟨5, 5, true⟩ 100 = (false, ⟨0, 5, false⟩) :=
  ⟨(C3_circuit_breaker_lifecycle 1 2 3 4 5 6 100 (by omega) (by omega)).2.2.2.2.2.1,
   (C3_circuit_breaker_lifecycle 1 2 3 4 5 6 100 (by omega) (by omega)).2.2.2.2.2.2⟩

/-- Witness for C4 at concrete runs with `MaxRetries = 1`: a 503 then a
200 succeeds on the second attempt; constant 500, 429 and network-error
backends exhaust the budget reporting two attempts. -/
theorem C4_retry_exactly_retryable_statuses_witness :
    ((transportDo ⟨1, true⟩ newCircuitState 0
        (fun i => if i = 0 then .resp 503 else .resp 200)).1 = .ok 200 ∧
     (transportDo ⟨1, true⟩ newCircuitState 0
        (fun i => if i = 0 then .resp 503 else .resp 200)).2.2 = 2) ∧
    (transportDo ⟨1, true⟩ newCircuitState 0 (fun _ => .resp 500)).1
      = .error (.serverError 500 2) ∧
    (transportDo ⟨1, true⟩ newCircuitState 0 (fun _ => .resp 429)).1
      = .error (.rateLimited 2) ∧
    (transportDo ⟨1, true⟩ newCircuitState 0 (fun _ => .netErr "refused")).1
      = .error (.requestFailed 2 (some "refused")) := by
  refine ⟨?_, ?_, ?_, ?_⟩
  · exact C4_retry_exactly_retryable_statuses.2.1 ⟨1, true⟩ newCircuitState 0
      (fun i => if i = 0 then .resp 503 else .resp 200) 1 200
      (Or.inr rfl) (by decide)
      (fun i hi => by
        have hz : i = 0 := by omega
        subst hz
        decide)
      (by decide) (by decide)
  · exact (C4_retry_exactly_retryable_statuses.2.2.1 ⟨1, true⟩ newCircuitState 0
      (fun _ => .resp 500) 500 (Or.inr rfl)
      (fun i _ => rfl) (by decide) (by decide) (by decide)).1
  · exact (C4_retry_exactly_retryable_statuses.2.2.2.1 ⟨1, true⟩ newCircuitState 0
      (fun _ => .resp 429) (Or.inr rfl)
      (fun i _ => rfl) (by decide)).1
  · exact (C4_retry_exactly_retryable_statuses.2.2.2.2 ⟨1, true⟩ newCircuitState 0
      (fun _ => .netErr "refused") "refused" (Or.inr rfl)
      (fun i _ => rfl) (by decide)).1

/-- Witness for C5 at the scenario input: the standard search cannot
report no-standard-match there, since the first candidate contains the
`Linux_x86_64` key. -/
theorem C5_standard_first_match_witness :
    (["app-Linux_x86_64.tar.gz", "app-Darwin_arm64.tar.gz"] : List String) ≠ [] ∧
    ¬(AssetMatcher.FindBestMatch
        ⟨{ DefaultAssetMatchingConfig with strategy := .standardStrategy },
          "linux", "amd64"⟩
        ["app-Linux_x86_64.tar.gz", "app-Darwin_arm64.tar.gz"]
      = .error (.noStandardMatch
          (goTitle (goToLower "linux") ++ "_" ++ MapArch "amd64"))) := by
  refine ⟨by decide, fun herr => ?_⟩
  have h := (C5_standard_first_match.1
    ⟨{ DefaultAssetMatchingConfig with strategy := .standardStrategy },
      "linux", "amd64"⟩
    ["app-Linux_x86_64.tar.gz", "app-Darwin_arm64.tar.gz"]
    rfl (by decide) (by decide)).2.mp herr
    "app-Linux_x86_64.tar.gz" (by decide)
  exact absurd h (by decide)

/-- Witness for C6 at the scenario input: Flexible finds nothing among
`["unrelated.txt"]`, so Hybrid resolution yields the CDN URL. -/
theorem C6_hybrid_cdn_fallback_witness :
    AssetMatcher.FindBestMatch
        ⟨{ DefaultAssetMatchingConfig with
            strategy := .hybridStrategy,
            cdnBaseURL := "https://example.com/",
            cdnPattern := "{version}/x_{os}_{arch}.zip" }, "linux", "amd64"⟩
        ["unrelated.txt"]
      = .ok "https://example.com/{version}/x_linux_amd64.zip" :=
  (C6_hybrid_cdn_fallback.1
    ⟨{ DefaultAssetMatchingConfig with
        strategy := .hybridStrategy,
        cdnBaseURL := "https://example.com/",
        cdnPattern := "{version}/x_{os}_{arch}.zip" }, "linux", "amd64"⟩
    ["unrelated.txt"] rfl (by decide) (by decide) (by decide) (by decide)
    ⟨.noFlexibleMatch "linux" "amd64", rfl⟩).trans rfl

/-- Witness for C7 at concrete versions. -/
theorem C7_cdn_version_format_roundtrip_witness :
    goStartsWith "3.1.0" "v" = false ∧
    FormatVersionForCDN "3.1.0" "with-v" = "v3.1.0" ∧
    goTrimLeading (FormatVersionForCDN "3.1.0" "with-v") "v" = "3.1.0" ∧
    FormatVersionForCDN "7.0" "unknown-mode" = "7.0" :=
  ⟨by decide,
   ((C7_cdn_version_format_roundtrip.1 "3.1.0" (by decide)).1).trans rfl,
   (C7_cdn_version_format_roundtrip.1 "3.1.0" (by decide)).2,
   C7_cdn_version_format_roundtrip.2.2.2.1 "7.0" "unknown-mode"
     (by decide) (by decide)⟩

/-- Witness for C8 at a Helm-style override table and at an empty one. -/
theorem C8_cdn_arch_override_priority_witness :
    (CDNDownloader.mapArchForCDN
        ⟨"https://example.com/", "tool-{version}-{os}-{arch}.tar.gz",
          [("amd64", "amd64"), ("x86_64", "amd64"), ("x64", "amd64")]⟩
        " AMD64 " = "amd64") ∧
    (CDNDownloader.mapArchForCDN ⟨"b", "p", []⟩ "amd64" = MapArch "amd64") :=
  ⟨C8_cdn_arch_override_priority.1
      ⟨"https://example.com/", "tool-{version}-{os}-{arch}.tar.gz",
        [("amd64", "amd64"), ("x86_64", "amd64"), ("x64", "amd64")]⟩
      " AMD64 " "amd64" (by decide),
   C8_cdn_arch_override_priority.2.1 ⟨"b", "p", []⟩ "amd64" (by decide)⟩

/-- Witness for C10 with the malformed pattern `(`: filtering and
custom matching behave exactly as if the pattern were absent. -/
theorem C10_invalid_patterns_silently_skipped_witness :
    compilePattern (goToLower "(") = none ∧
    AssetMatcher.filterExcludedAssets
        ⟨{ DefaultAssetMatchingConfig with excludePatterns := "(" :: ["airgap"] },
          "linux", "amd64"⟩
        ["k0s-airgap-bundle", "app-linux-amd64.tar.gz"]
      = AssetMatcher.filterExcludedAssets
        ⟨{ DefaultAssetMatchingConfig with excludePatterns := ["airgap"] },
          "linux", "amd64"⟩
        ["k0s-airgap-bundle", "app-linux-amd64.tar.gz"] ∧
    AssetMatcher.FindBestMatch
        ⟨{ DefaultAssetMatchingConfig with
            strategy := .customStrategy,
            customPatterns := "(" :: ["app-.*"] }, "linux", "amd64"⟩
        ["app-linux-amd64.tar.gz"]
      = AssetMatcher.FindBestMatch
        ⟨{ DefaultAssetMatchingConfig with
            strategy := .customStrategy,
            customPatterns := ["app-.*"] }, "linux", "amd64"⟩
        ["app-linux-amd64.tar.gz"] := by
  refine ⟨by decide, ?_, ?_⟩
  · exact C10_invalid_patterns_silently_skipped.1
      ⟨{ DefaultAssetMatchingConfig with excludePatterns := ["airgap"] },
        "linux", "amd64"⟩
      "(" ["airgap"] ["k0s-airgap-bundle", "app-linux-amd64.tar.gz"] (by decide)
  · exact C10_invalid_patterns_silently_skipped.2.2
      ⟨{ DefaultAssetMatchingConfig with
          strategy := .customStrategy, customPatterns := ["app-.*"] },
        "linux", "amd64"⟩
      "(" ["app-.*"] ["app-linux-amd64.tar.gz"]
      rfl (by decide) (by decide) (by decide) (by decide)

/-- Witness for C9: a 404 on the first attempt, arriving with the
failure counter already at 4, returns the response and resets the
counter to zero with the circuit closed. -/
theorem C9_non_retryable_resets_circuit_witness :
    shouldRetry 404 = false ∧
    transportDo ⟨0, true⟩ ⟨4, 2, false⟩ 3 (fun _ => .resp 404)
      = (.ok 404, ⟨0, 2, false⟩, 1) :=
  ⟨by decide,
   (C9_non_retryable_resets_circuit.2.1 ⟨0, true⟩ ⟨4, 2, false⟩ 3
     (fun _ => .resp 404) 404 (Or.inr rfl) rfl (by decide)).trans rfl⟩
